import Mathlib

/-!
Shallow embedding of `src/gpstelemetry.c` (GoPro GPS telemetry extractor).

The C program walks one or more MP4 files; for each file it iterates GPMF
payloads, and within a payload it iterates decoded metadata blocks keyed by
a four-character tag (GPSU, GPSF, GPSP, GPS5, GPS9).  The embedding below
mirrors `main`'s processing pipeline:

* `Clock` is the C `gpsu` struct: a `time_t` absolute second count plus a
  `double` millisecond fraction (modelled exactly as a rational).
* `Clock.advance` is the per-sample update
  `gpsu.milliseconds += step*1000; if (>= 1000) { -= 1000; time++ }`
  (a single conditional in the source, lines 263-268 and 302-307).
* `timegm` / `daysFromCivil` model the C library's `timegm` on UTC fields
  (proleptic Gregorian civil-date-to-epoch-day conversion).
* `parseGpsu` is the GPSU fixed-width `YYMMDDHHMMSS.fff` parse
  (lines 213-230).
* `stepGps5Sample` / `stepGps9Sample` are the per-sample bodies of the
  GPS5 and GPS9 branches; `sampleLoop` is the `for (i < samples)` loop with
  the running payload-local time `now` (incremented by `step` per sample).
* `processBlock` is one iteration of the do/while block loop, including the
  `!samples`, `!structsize` and failed-`malloc` `continue` guards, the
  `use_gps9` guard on GPS5 dispatch, and the `file_finish = finish`
  assignment performed for every successfully decoded known block.
* `processPayloads` / `processFile` / `processFiles` model the payload loop,
  the per-file `file_finish` accumulator (initialised to 0 per file) and the
  `file_start += file_finish` accumulation across files.

Doubles are modelled as rationals (the algorithms involved use only exact
arithmetic on the magnitudes of interest); C casts from double to an
integer type truncate toward zero, modelled by `qtrunc`; sample counts of a
decoded block equal the length of its decoded value list (the C buffer is
sized and filled to exactly `samples` samples).  Output formatting is
abstracted to a `Row` of the numeric quantities that are printed.
-/

namespace GpsTelemetry

/-- Truncation of a rational toward zero, the semantics of a C cast from
`double` to an integer type (`Int.tdiv` is T-division, which truncates
toward zero; a rational's denominator is positive). -/
def qtrunc (q : ℚ) : Int := Int.tdiv q.num q.den

/-- Days from civil date (proleptic Gregorian) to days since 1970-01-01,
Hinnant's algorithm; `m` is the 1-based civil month.  The arithmetic is
linear in `d`, so it also models `timegm`'s normalisation of out-of-range
`tm_mday` values such as 0 (used by the program for `gps9_epoch`). -/
def daysFromCivil (y m d : Int) : Int :=
  let yy := if m ≤ 2 then y - 1 else y
  let era := Int.tdiv (if 0 ≤ yy then yy else yy - 399) 400
  let yoe := yy - era * 400
  let mp := Int.emod (m + 9) 12
  let doy := Int.tdiv (153 * mp + 2) 5 + d - 1
  let doe := yoe * 365 + Int.tdiv yoe 4 - Int.tdiv yoe 100 + doy
  era * 146097 + doe - 719468

/-- The fields of C's `struct tm` used by the program: `year` counts years
since 1900 and `mon` is the ordinal (0-based) month, as in `<time.h>`. -/
structure Tm where
  year : Int
  mon : Int
  mday : Int
  hour : Int
  minute : Int
  sec : Int
deriving DecidableEq

/-- Model of the C library's `timegm`: UTC epoch seconds of a `struct tm`. -/
def timegm (t : Tm) : Int :=
  daysFromCivil (t.year + 1900) (t.mon + 1) t.mday * 86400
    + t.hour * 3600 + t.minute * 60 + t.sec

/-- Epoch seconds of a civil UTC datetime (1-based month), used to state
properties in calendar terms. -/
def epochOfDate (y m d hh mm ss : Int) : Int :=
  daysFromCivil y m d * 86400 + hh * 3600 + mm * 60 + ss

/-- `gps9_epoch` as computed at lines 78-80: `tm` zeroed, `tm_year = 100`
(so `tm_mon = 0` and, notably, `tm_mday = 0`), passed to `timegm`.
With `tm_mday = 0` this is 1999-12-31T00:00:00Z, one day before the
2000-01-01 epoch. -/
def gps9Epoch : Int :=
  timegm { year := 100, mon := 0, mday := 0, hour := 0, minute := 0, sec := 0 }

/-- The C `gpsu` struct (lines 171-175): reconstructed absolute time as
whole epoch seconds (`time_t time`) plus a sub-second millisecond quantity
(`double milliseconds`).  This is the spec's ClockState. -/
structure Clock where
  time : Int
  millis : ℚ
deriving DecidableEq

/-- Per-sample clock advancement (lines 263-268 and 302-307):
`gpsu.milliseconds += stepMillis; if (gpsu.milliseconds >= 1000.0)
{ gpsu.milliseconds -= 1000.0; gpsu.time++; }` — note the single
conditional. -/
def Clock.advance (c : Clock) (stepMillis : ℚ) : Clock :=
  let m := c.millis + stepMillis
  if 1000 ≤ m then { time := c.time + 1, millis := m - 1000 }
  else { time := c.time, millis := m }

/-- `(char) - '0'` for the i-th character of the GPSU string (missing
characters read as `'0'` merely to keep the accessor total; all claims use
full 16-character strings). -/
def digitAt (cs : List Char) (i : Nat) : Int :=
  ((cs.getD i '0').toNat : Int) - 48

/-- The GPSU fixed-width parse (lines 220-229): digits `YYMMDDHHMMSS.fff`;
two-digit year plus 100 gives `tm_year` (years since 1900, hence year
2000 + YY), the month is decremented to the ordinal form, and the three
fraction digits become milliseconds. -/
def parseGpsu (cs : List Char) : Clock :=
  let t : Tm :=
    { year := 10 * digitAt cs 0 + digitAt cs 1 + 100
      mon := 10 * digitAt cs 2 + digitAt cs 3 - 1
      mday := 10 * digitAt cs 4 + digitAt cs 5
      hour := 10 * digitAt cs 6 + digitAt cs 7
      minute := 10 * digitAt cs 8 + digitAt cs 9
      sec := 10 * digitAt cs 10 + digitAt cs 11 }
  { time := timegm t
    millis := ((100 * digitAt cs 13 + 10 * digitAt cs 14 + digitAt cs 15 : Int) : ℚ) }

/-- Filter thresholds from `--min_fix` / `--max_precision`; a negative
value (the initial `-1`) means "no filtering" (lines 63-64). -/
structure Filt where
  minFix : Int
  maxPrecision : Int
deriving DecidableEq

/-- The filter check of lines 236-237 and 277-278:
`(min_fix < 0 || fix >= min_fix) && (max_precision < 0 || precision <= max_precision)`. -/
def Filt.passes (f : Filt) (fix precision : Int) : Bool :=
  (decide (f.minFix < 0) || decide (f.minFix ≤ fix))
    && (decide (f.maxPrecision < 0) || decide (precision ≤ f.maxPrecision))

/-- One emitted output row: the printed `cts` value `(file_start + now) * 1000`,
the printed clock (`gpsu.time` and the truncated `(int)gpsu.milliseconds`),
the numeric data fields in printed order, and the fix/precision used. -/
structure Row where
  cts : ℚ
  time : Int
  millisOut : Int
  fields : List ℚ
  fix : Int
  precision : Int
deriving DecidableEq

/-- Mutable processing state threaded through the dispatch loop:
`use_gps9` (line 62, main scope — shared by all files of the run), the
carried GPSF fix and GPSP precision, and the `gpsu` clock. -/
structure PState where
  useGps9 : Bool
  fix : Int
  precision : Int
  clock : Clock
deriving DecidableEq

/-- The GPS9 clock seeding of lines 287-293, executed when `0.0 == now`
inside the filter-accepted branch:
`gpsu.time = gps9_epoch + (days+1)*86400;`
`sub = fmod(secs, 1.0); gpsu.milliseconds = (int)(1000*sub);`
`gpsu.time += (time_t)(secs - sub);`  (`fmod(x,1.0) = x - trunc(x)`). -/
def gps9SeedClock (days secs : ℚ) : Clock :=
  let subSecs := secs - (qtrunc secs : ℚ)
  { time := gps9Epoch + (qtrunc days + 1) * 86400 + qtrunc (secs - subSecs)
    millis := ((qtrunc (1000 * subSecs) : Int) : ℚ) }

/-- The GPS9 printed fields, `ptr[gps9_indexes[j]]` for
`gps9_indexes = {0,1,2,3,4,8,7}` (lat, long, alt, 2D speed, 3D speed,
fix, precision), lines 44-53 and 296-297. -/
def gps9Fields (v : List ℚ) : List ℚ :=
  [v.getD 0 0, v.getD 1 0, v.getD 2 0, v.getD 3 0, v.getD 4 0,
   v.getD 8 0, v.getD 7 0]

/-- One iteration of the GPS5 sample loop body (lines 231-268): filter on
the carried fix/precision, emit a row if it passes, then advance the clock
by `step * 1000` milliseconds regardless of the filter outcome. -/
def stepGps5Sample (f : Filt) (fileStart now step : ℚ) (s : PState)
    (v : List ℚ) : PState × List Row :=
  let out : List Row :=
    if f.passes s.fix s.precision then
      [{ cts := (fileStart + now) * 1000, time := s.clock.time,
         millisOut := qtrunc s.clock.millis, fields := v,
         fix := s.fix, precision := s.precision }]
    else []
  ({ s with clock := s.clock.advance (step * 1000) }, out)

/-- One iteration of the GPS9 sample loop body (lines 270-307): set
`use_gps9`, read fix (index 8) and precision (index 7) from the sample,
filter on them; if accepted, seed the clock from indexes 5/6 when
`now = 0` and emit a row; in either case advance the clock by
`step * 1000` milliseconds. -/
def stepGps9Sample (f : Filt) (fileStart now step : ℚ) (s : PState)
    (v : List ℚ) : PState × List Row :=
  let fix9 := qtrunc (v.getD 8 0)
  let prec9 := qtrunc (v.getD 7 0)
  let s1 : PState := { s with useGps9 := true }
  if f.passes fix9 prec9 then
    let c := if now = 0 then gps9SeedClock (v.getD 5 0) (v.getD 6 0) else s1.clock
    ({ s1 with clock := c.advance (step * 1000) },
     [{ cts := (fileStart + now) * 1000, time := c.time,
        millisOut := qtrunc c.millis, fields := gps9Fields v,
        fix := fix9, precision := prec9 }])
  else
    ({ s1 with clock := s1.clock.advance (step * 1000) }, [])

/-- The `for (i = 0; i < samples; i++)` loop (line 211) specialised to a
per-sample body: the payload-local time `now` starts at the payload's
`start` and increases by `step` per sample. -/
def sampleLoop (stepFn : ℚ → PState → List ℚ → PState × List Row)
    (step : ℚ) : ℚ → PState → List (List ℚ) → PState × List Row
  | _, s, [] => (s, [])
  | now, s, v :: rest =>
    let r1 := stepFn now s v
    let r2 := sampleLoop stepFn step (now + step) r1.1 rest
    (r2.1, r1.2 ++ r2.2)

/-- The GPS5 sample loop over a decoded block's rows. -/
def gps5Loop (f : Filt) (fileStart step : ℚ) :
    ℚ → PState → List (List ℚ) → PState × List Row :=
  sampleLoop (fun now s v => stepGps5Sample f fileStart now step s v) step

/-- The GPS9 sample loop over a decoded block's rows. -/
def gps9Loop (f : Filt) (fileStart step : ℚ) :
    ℚ → PState → List (List ℚ) → PState × List Row :=
  sampleLoop (fun now s v => stepGps9Sample f fileStart now step s v) step

/-- A decoded metadata block's payload data, by schema key.  `gpsu` holds
one fixed-width time string per sample; `gps5`/`gps9` hold one row of
scaled doubles per sample; `gpsf`/`gpsp` hold one integer per sample;
`other` is any unhandled key (for which `GPMF_FormattedData` /
`GPMF_ScaledData` is never called, so `res` stays an error and the block
is skipped), carrying only its sample count. -/
inductive BlockData where
  | gpsu (strs : List (List Char))
  | gps5 (rows : List (List ℚ))
  | gps9 (rows : List (List ℚ))
  | gpsf (vals : List Int)
  | gpsp (vals : List Int)
  | other (n : Nat)
deriving DecidableEq

/-- A decoded block as seen by the block loop: its data, its
`GPMF_StructSize`, and whether the `malloc` of the per-block scratch
buffer succeeds. -/
structure RawBlock where
  data : BlockData
  structsize : Nat
  allocOk : Bool
deriving DecidableEq

/-- `GPMF_Repeat`, the number of samples in a block: the decoded buffer
holds exactly this many samples. -/
def RawBlock.samples (b : RawBlock) : Nat :=
  match b.data with
  | .gpsu strs => strs.length
  | .gps5 rows => rows.length
  | .gps9 rows => rows.length
  | .gpsf vals => vals.length
  | .gpsp vals => vals.length
  | .other n => n

/-- One iteration of the do/while block loop (lines 178-322), threading
the dispatch state `s` and the running `file_finish` value `ff`:
`if (!samples) continue; if (!structsize) continue; if (!tmpbuffer)
continue;` then, for a recognised and successfully decoded key,
`file_finish = finish` followed by the per-sample loop.  The GPSU loop
re-parses the first string each iteration (`gpsu_string = tmpbuffer`), so
its net effect is a single parse; GPSF/GPSP read only the buffer's first
element each iteration (`*(uint32_t *)tmpbuffer`); the GPS5 branch is
guarded per sample by `!use_gps9`, which no GPS5 sample can change, so no
GPS5 sample has any effect once `use_gps9` is set. -/
def processBlock (f : Filt) (fileStart pstart pfinish : ℚ) (s : PState)
    (ff : ℚ) (b : RawBlock) : PState × ℚ × List Row :=
  if b.samples = 0 then (s, ff, [])
  else if b.structsize = 0 then (s, ff, [])
  else if b.allocOk = false then (s, ff, [])
  else
    match b.data with
    | .other _ => (s, ff, [])
    | .gpsu strs =>
      match strs with
      | [] => (s, ff, [])
      | cs :: _ => ({ s with clock := parseGpsu cs }, pfinish, [])
    | .gpsf vals =>
      match vals with
      | [] => (s, ff, [])
      | v :: _ => ({ s with fix := v }, pfinish, [])
    | .gpsp vals =>
      match vals with
      | [] => (s, ff, [])
      | v :: _ => ({ s with precision := v }, pfinish, [])
    | .gps5 rows =>
      if s.useGps9 then (s, pfinish, [])
      else
        let step := (pfinish - pstart) / (rows.length : ℚ)
        let r := gps5Loop f fileStart step pstart s rows
        (r.1, pfinish, r.2)
    | .gps9 rows =>
      let step := (pfinish - pstart) / (rows.length : ℚ)
      let r := gps9Loop f fileStart step pstart s rows
      (r.1, pfinish, r.2)

/-- The block loop over all decoded blocks of one payload. -/
def processBlocks (f : Filt) (fileStart pstart pfinish : ℚ) :
    PState × ℚ → List RawBlock → (PState × ℚ) × List Row
  | st, [] => (st, [])
  | st, b :: rest =>
    let r1 := processBlock f fileStart pstart pfinish st.1 st.2 b
    let r2 := processBlocks f fileStart pstart pfinish (r1.1, r1.2.1) rest
    (r2.1, r1.2.2 ++ r2.2)

/-- One payload: its `GetPayloadTime` interval `[start, finish)` in
file-local seconds and its decoded blocks. -/
structure Payload where
  start : ℚ
  finish : ℚ
  blocks : List RawBlock
deriving DecidableEq

/-- Process one payload's blocks against its time interval. -/
def processPayload (f : Filt) (fileStart : ℚ) (st : PState × ℚ)
    (p : Payload) : (PState × ℚ) × List Row :=
  processBlocks f fileStart p.start p.finish st p.blocks

/-- The payload loop of one file (line 154). -/
def processPayloads (f : Filt) (fileStart : ℚ) :
    PState × ℚ → List Payload → (PState × ℚ) × List Row
  | st, [] => (st, [])
  | st, p :: rest =>
    let r1 := processPayload f fileStart st p
    let r2 := processPayloads f fileStart r1.1 rest
    (r2.1, r1.2 ++ r2.2)

/-- Run-level state: the cross-file `file_start` accumulator (line 59)
and the dispatch state. -/
structure RunState where
  fileStart : ℚ
  ps : PState
deriving DecidableEq

/-- Process one file: `file_finish` starts at 0 (line 149), all payloads
are processed, and afterwards `file_start += file_finish` (line 340). -/
def processFile (f : Filt) (rs : RunState) (payloads : List Payload) :
    RunState × List Row :=
  let r := processPayloads f rs.fileStart (rs.ps, 0) payloads
  ({ fileStart := rs.fileStart + r.1.2, ps := r.1.1 }, r.2)

/-- The file loop (line 118): files processed sequentially, the dispatch
state and `file_start` threading through; returns each file's rows. -/
def processFiles (f : Filt) : RunState → List (List Payload) → RunState × List (List Row)
  | rs, [] => (rs, [])
  | rs, fl :: rest =>
    let r1 := processFile f rs fl
    let r2 := processFiles f r1.1 rest
    (r2.1, r1.2 :: r2.2)

/-- Two GPS9 rows agree on every observable index (everything except the
day/seconds sync fields at indexes 5 and 6). -/
def sameObs (v w : List ℚ) : Prop :=
  ∀ j : Nat, j ≠ 5 → j ≠ 6 → v.getD j 0 = w.getD j 0

/- Concrete fixtures used by counterexamples and witnesses. -/

/-- A default row, used only to take the head of concrete non-empty row
lists in closed statements. -/
def row0 : Row :=
  { cts := 0, time := 0, millisOut := 0, fields := [], fix := 0, precision := 0 }

/-- No filtering: both thresholds at their `-1` sentinel. -/
def noFilter : Filt := { minFix := -1, maxPrecision := -1 }

/-- A zeroed clock. -/
def clock0 : Clock := { time := 0, millis := 0 }

/-- Initial dispatch state: `use_gps9 = false`, zeroed carried values. -/
def pstate0 : PState := { useGps9 := false, fix := 0, precision := 0, clock := clock0 }

/-- A GPS5 sample row (lat, long, alt, 2D speed, 3D speed). -/
def gps5Row1 : List ℚ := [1, 2, 3, 4, 5]

/-- A GPS9 sample row with sync day 0, seconds-of-day 0, precision 0, fix 0. -/
def gps9Row1 : List ℚ := [1, 2, 3, 4, 5, 0, 0, 0, 0]

/-- A GPS9 row with sync day 1 and seconds-of-day 1/2, fix 0, precision 0. -/
def gps9RowHalf : List ℚ := [0, 0, 0, 0, 0, 1, 1/2, 0, 0]

/-- A GPS9 row with sync day 500, seconds-of-day 7, and fix 0 (rejected
by a `min_fix=3` filter). -/
def gps9CexRowA : List ℚ := [0, 0, 0, 0, 0, 500, 7, 0, 0]

/-- A GPS9 row with sync day 500, seconds-of-day 7, and fix 3 (accepted
by a `min_fix=3` filter). -/
def gps9CexRowB : List ℚ := [0, 0, 0, 0, 0, 500, 7, 0, 3]

/-- A one-payload file containing a single one-sample GPS9 block. -/
def fileC : List Payload :=
  [{ start := 0, finish := 1, blocks := [{ data := .gps9 [gps9Row1], structsize := 8, allocOk := true }] }]

/-- A one-payload file containing a single one-sample GPS5 block. -/
def fileL : List Payload :=
  [{ start := 0, finish := 1, blocks := [{ data := .gps5 [gps5Row1], structsize := 8, allocOk := true }] }]

/-- A file whose last payload finishes at local time 10.0 s. -/
def fileA10 : List Payload :=
  [{ start := 8, finish := 10, blocks := [{ data := .gps5 [gps5Row1], structsize := 8, allocOk := true }] }]

/-- A file whose first payload starts at local time 0. -/
def fileB0 : List Payload :=
  [{ start := 0, finish := 2, blocks := [{ data := .gps5 [gps5Row1], structsize := 8, allocOk := true }] }]

/-- The sixteen characters of the clock-sync example string
`210615123456.789`. -/
def gpsuSample : List Char :=
  ['2', '1', '0', '6', '1', '5', '1', '2', '3', '4', '5', '6', '.', '7', '8', '9']


/-! ## Helper lemmas -/

/-- Truncation of an integer-valued rational is the integer itself. -/
theorem qtrunc_intCast (n : Int) : qtrunc (n : ℚ) = n := by
  simp [qtrunc]

/-! ## C1: clock fraction normalisation -/

/-- C1 counterexample: `Clock.advance` subtracts 1000 at most once (a
single conditional, lines 263-268 / 302-307), so a step of 2000 ms from a
zero fraction leaves `fractionMillis = 1000`, outside `[0, 1000)`.  The
claim that the carry "repeats as often as needed" is false on the code. -/
theorem c1_carry_cex :
    ¬ (((Clock.mk 0 0).advance 2000).millis < 1000) := by
  norm_num [Clock.advance]

/-- C1 (amended): after `Clock.advance` with non-negative `stepMillis`,
`fractionMillis` is in `[0, 1000)` provided the incoming fraction plus the
step is below 2000 (in particular for every step of at most 1000 ms): the
rollover is a single conditional, not a carry loop, so it normalises the
fraction only when at most one second boundary is crossed. -/
theorem c1_advance_fraction_range (c : Clock) (stepMillis : ℚ)
    (h0 : 0 ≤ c.millis) (h1 : 0 ≤ stepMillis)
    (h2 : c.millis + stepMillis < 2000) :
    0 ≤ (c.advance stepMillis).millis ∧ (c.advance stepMillis).millis < 1000 := by
  by_cases hc : (1000 : ℚ) ≤ c.millis + stepMillis
  · simp only [Clock.advance, if_pos hc]
    constructor <;> linarith
  · simp only [Clock.advance, if_neg hc]
    constructor <;> linarith

/-- Witness for C1 (amended) at the concrete clock `⟨0, 0⟩` and a step of
500 ms. -/
theorem c1_advance_fraction_range_witness :
    0 ≤ ((Clock.mk 0 0).advance 500).millis
      ∧ ((Clock.mk 0 0).advance 500).millis < 1000 :=
  c1_advance_fraction_range (Clock.mk 0 0) 500 (by norm_num) (by norm_num)
    (by norm_num)

/-! ## C5: GPSU clock-sync parsing -/

/-- C5: parsing the clock-sync string `210615123456.789` with the
fixed-width `YYMMDDHHMMSS.fff` format (two-digit year plus 2000, month
converted from 1-based to 0-based before the epoch conversion) yields the
UTC epoch second of 2021-06-15T12:34:56 and 789 fractional milliseconds. -/
theorem c5_gpsu_parse :
    parseGpsu gpsuSample
        = { time := epochOfDate 2021 6 15 12 34 56, millis := 789 }
      ∧ epochOfDate 2021 6 15 12 34 56 = 1623760496 := by
  constructor
  · decide
  · decide

/-! ## C6: filter policy -/

/-- C6: for every fix and precision value, a sample passes the filter iff
(`minFix` unset, i.e. negative, OR `fix ≥ minFix`) AND (`maxPrecision`
unset OR `precision ≤ maxPrecision`).  `Filt.passes` is a pure function of
exactly these four integers, so it reads no other state and changes
nothing. -/
theorem c6_filter_passes_iff (minFix maxPrecision fix precision : Int) :
    Filt.passes { minFix := minFix, maxPrecision := maxPrecision } fix precision = true
      ↔ ((minFix < 0 ∨ minFix ≤ fix)
          ∧ (maxPrecision < 0 ∨ precision ≤ maxPrecision)) := by
  simp [Filt.passes]

/-! ## C8: allocation failure skips exactly one block -/

/-- C8: if the `malloc` of the per-block scratch buffer fails for a block
that reached the allocation (non-zero samples and struct size), processing
of the whole block list is the same as if that block were absent: no row
is emitted from it, no state changes (clock, carried fix/precision, and
the running `file_finish` are untouched), and the loop continues with the
next block of the same payload (lines 190-193, `continue`). -/
theorem c8_alloc_failure_skips_block (f : Filt) (fileStart pstart pfinish : ℚ)
    (st : PState × ℚ) (b : RawBlock) (rest : List RawBlock)
    (hn : b.samples ≠ 0) (hs : b.structsize ≠ 0) (ha : b.allocOk = false) :
    processBlocks f fileStart pstart pfinish st (b :: rest)
      = processBlocks f fileStart pstart pfinish st rest := by
  simp [processBlocks, processBlock, hn, hs, ha]

/-- Witness for C8 on a concrete GPS5 block whose allocation fails. -/
theorem c8_alloc_failure_skips_block_witness :
    processBlocks noFilter 0 0 1 (pstate0, 0)
        [{ data := .gps5 [gps5Row1], structsize := 8, allocOk := false }]
      = processBlocks noFilter 0 0 1 (pstate0, 0) [] :=
  c8_alloc_failure_skips_block noFilter 0 0 1 (pstate0, 0)
    { data := .gps5 [gps5Row1], structsize := 8, allocOk := false } []
    (by decide) (by decide) rfl

/-! ## C9: empty blocks are skipped without any effect -/

/-- C9 (implicit): a decoded block whose sample count is zero or whose
struct size is zero is skipped entirely (lines 184 and 188, `continue`):
no row is emitted, the clock state, the carried fix/precision and the
running file end time `file_finish` are all unchanged, and iteration
proceeds to the next block. -/
theorem c9_empty_block_skipped (f : Filt) (fileStart pstart pfinish : ℚ)
    (st : PState × ℚ) (b : RawBlock) (rest : List RawBlock)
    (h : b.samples = 0 ∨ b.structsize = 0) :
    processBlocks f fileStart pstart pfinish st (b :: rest)
      = processBlocks f fileStart pstart pfinish st rest := by
  rcases h with h | h
  · simp [processBlocks, processBlock, h]
  · by_cases hn : b.samples = 0
    · simp [processBlocks, processBlock, hn]
    · simp [processBlocks, processBlock, hn, h]

/-- Witness for C9 on a concrete GPS5 block with zero samples. -/
theorem c9_empty_block_skipped_witness :
    processBlocks noFilter 0 0 1 (pstate0, 0)
        [{ data := .gps5 [], structsize := 8, allocOk := true }]
      = processBlocks noFilter 0 0 1 (pstate0, 0) [] :=
  c9_empty_block_skipped noFilter 0 0 1 (pstate0, 0)
    { data := .gps5 [], structsize := 8, allocOk := true } []
    (Or.inl rfl)

/-! ## C10: GPSF/GPSP carry only the first element -/

/-- C10 (implicit): a Legacy fix-quality (GPSF) or precision (GPSP) block
sets the carried fix (respectively precision) to the block's first element
(`*(uint32_t *)tmpbuffer`, lines 309-316), no matter how many samples the
block contains: the result is literally independent of the elements after
the first, and nothing else (clock, other carried value, rows) changes
besides the `file_finish = finish` assignment every decoded block
performs. -/
theorem c10_gpsf_gpsp_first_element (f : Filt) (fileStart pstart pfinish : ℚ)
    (s : PState) (ff : ℚ) (v : Int) (rest : List Int) (ss : Nat)
    (hss : ss ≠ 0) :
    processBlock f fileStart pstart pfinish s ff
        { data := .gpsf (v :: rest), structsize := ss, allocOk := true }
      = ({ s with fix := v }, pfinish, [])
    ∧ processBlock f fileStart pstart pfinish s ff
        { data := .gpsp (v :: rest), structsize := ss, allocOk := true }
      = ({ s with precision := v }, pfinish, []) := by
  constructor <;> simp [processBlock, RawBlock.samples, hss]

/-- Witness for C10 at a concrete two-element GPSF/GPSP block: the carried
value is the first element, 4, and the trailing element 9 is ignored. -/
theorem c10_gpsf_gpsp_first_element_witness :
    processBlock noFilter 0 0 1 pstate0 0
        { data := .gpsf [4, 9], structsize := 4, allocOk := true }
      = ({ pstate0 with fix := 4 }, 1, [])
    ∧ processBlock noFilter 0 0 1 pstate0 0
        { data := .gpsp [4, 9], structsize := 4, allocOk := true }
      = ({ pstate0 with precision := 4 }, 1, []) :=
  c10_gpsf_gpsp_first_element noFilter 0 0 1 pstate0 0 4 [9] 4 (by decide)

/-! ## C4: the filter outcome and the clock -/

unseal Rat.mul Rat.add Rat.sub Rat.inv in
/-- C4 counterexample: for a Consolidated (GPS9) sample at payload-local
time `now = 0`, the clock seeding (lines 287-293) happens inside the
filter-accepted branch only, so the clock after processing the same sample
with the same step differs between an accepting filter and a rejecting
one: the claim that the clock state is identical whether the filter
accepts or rejects the sample is false on the code. -/
theorem c4_filter_clock_cex :
    (stepGps9Sample noFilter 0 0 1 pstate0 gps9RowHalf).1.clock
      ≠ (stepGps9Sample { minFix := 3, maxPrecision := -1 } 0 0 1 pstate0 gps9RowHalf).1.clock := by
  decide

/-- C4 (amended): the clock state after processing a position sample with
a given step size does not depend on the filter (hence not on whether the
row was emitted) for every Legacy (GPS5) sample, and for every
Consolidated (GPS9) sample whose payload-local time `now` is non-zero —
i.e. for every sample except a Consolidated one at `now = 0`, where the
accepted branch additionally seeds the clock from the sample's sync
fields. -/
theorem c4_clock_filter_independent (f g : Filt) (fileStart now step : ℚ)
    (s : PState) (v : List ℚ) :
    (stepGps5Sample f fileStart now step s v).1.clock
        = (stepGps5Sample g fileStart now step s v).1.clock
    ∧ (now ≠ 0 →
        (stepGps9Sample f fileStart now step s v).1.clock
          = (stepGps9Sample g fileStart now step s v).1.clock) := by
  constructor
  · rfl
  · intro h
    simp only [stepGps9Sample, if_neg h]
    split <;> split <;> rfl

/-- Witness for C4 (amended) at a concrete GPS9 sample with `now = 1`
under an accepting and a rejecting filter. -/
theorem c4_clock_filter_independent_witness :
    (stepGps9Sample noFilter 0 1 1 pstate0 gps9RowHalf).1.clock
      = (stepGps9Sample { minFix := 3, maxPrecision := -1 } 0 1 1 pstate0 gps9RowHalf).1.clock :=
  (c4_clock_filter_independent noFilter { minFix := 3, maxPrecision := -1 }
      0 1 1 pstate0 gps9RowHalf).2 (by norm_num)

/-! ## C2: schema generation is per run, not per file -/

/-- `stepGps9Sample` always sets `use_gps9` (line 272). -/
theorem stepGps9Sample_useGps9 (f : Filt) (fileStart now step : ℚ)
    (s : PState) (v : List ℚ) :
    (stepGps9Sample f fileStart now step s v).1.useGps9 = true := by
  simp only [stepGps9Sample]
  split <;> rfl

/-- `sampleLoop` preserves a set `use_gps9` flag whenever its per-sample
body does. -/
theorem sampleLoop_useGps9 (stepFn : ℚ → PState → List ℚ → PState × List Row)
    (step : ℚ)
    (H : ∀ now s v, s.useGps9 = true → (stepFn now s v).1.useGps9 = true) :
    ∀ (rows : List (List ℚ)) (now : ℚ) (s : PState), s.useGps9 = true →
      (sampleLoop stepFn step now s rows).1.useGps9 = true := by
  intro rows
  induction rows with
  | nil => intro now s h; simpa [sampleLoop] using h
  | cons v rest ih =>
    intro now s h
    simp only [sampleLoop]
    exact ih (now + step) (stepFn now s v).1 (H now s v h)

/-- The GPS9 sample loop preserves a set `use_gps9` flag. -/
theorem gps9Loop_useGps9 (f : Filt) (fileStart step : ℚ)
    (rows : List (List ℚ)) (now : ℚ) (s : PState) (h : s.useGps9 = true) :
    (gps9Loop f fileStart step now s rows).1.useGps9 = true :=
  sampleLoop_useGps9 (fun now s v => stepGps9Sample f fileStart now step s v)
    step (fun now s v _ => stepGps9Sample_useGps9 f fileStart now step s v)
    rows now s h

/-- Once `use_gps9` is set, no block resets it. -/
theorem processBlock_useGps9 (f : Filt) (fileStart pstart pfinish : ℚ)
    (s : PState) (ff : ℚ) (b : RawBlock) (h : s.useGps9 = true) :
    (processBlock f fileStart pstart pfinish s ff b).1.useGps9 = true := by
  rcases b with ⟨data, ss, ok⟩
  unfold processBlock
  repeat' split
  all_goals first
    | exact h
    | exact gps9Loop_useGps9 f fileStart _ _ _ _ h

/-- Once `use_gps9` is set, no block list resets it. -/
theorem processBlocks_useGps9 (f : Filt) (fileStart pstart pfinish : ℚ) :
    ∀ (bs : List RawBlock) (st : PState × ℚ), st.1.useGps9 = true →
      (processBlocks f fileStart pstart pfinish st bs).1.1.useGps9 = true := by
  intro bs
  induction bs with
  | nil => intro st h; simpa [processBlocks] using h
  | cons b rest ih =>
    intro st h
    simp only [processBlocks]
    exact ih _ (processBlock_useGps9 f fileStart pstart pfinish st.1 st.2 b h)

/-- Once `use_gps9` is set, no payload list resets it. -/
theorem processPayloads_useGps9 (f : Filt) (fileStart : ℚ) :
    ∀ (ps : List Payload) (st : PState × ℚ), st.1.useGps9 = true →
      (processPayloads f fileStart st ps).1.1.useGps9 = true := by
  intro ps
  induction ps with
  | nil => intro st h; simpa [processPayloads] using h
  | cons p rest ih =>
    intro st h
    simp only [processPayloads]
    exact ih _ (processBlocks_useGps9 f fileStart p.start p.finish p.blocks st h)

/-- Once `use_gps9` is set, processing further files never resets it. -/
theorem processFiles_useGps9 (f : Filt) :
    ∀ (files : List (List Payload)) (rs : RunState), rs.ps.useGps9 = true →
      (processFiles f rs files).1.ps.useGps9 = true := by
  intro files
  induction files with
  | nil => intro rs h; simpa [processFiles] using h
  | cons fl rest ih =>
    intro rs h
    simp only [processFiles]
    exact ih _ (processPayloads_useGps9 f rs.fileStart fl (rs.ps, 0) h)

/-- With `use_gps9` set, a GPS5 block changes no dispatch state and emits
no rows (the per-sample guard `!use_gps9` at line 231 fails for every
sample). -/
theorem processBlock_gps5_ignored (f : Filt) (fileStart pstart pfinish : ℚ)
    (s : PState) (ff : ℚ) (rows : List (List ℚ)) (ss : Nat) (ok : Bool)
    (h : s.useGps9 = true) :
    (processBlock f fileStart pstart pfinish s ff
        { data := .gps5 rows, structsize := ss, allocOk := ok }).1 = s
    ∧ (processBlock f fileStart pstart pfinish s ff
        { data := .gps5 rows, structsize := ss, allocOk := ok }).2.2 = [] := by
  unfold processBlock
  repeat' split
  all_goals simp_all

unseal Rat.mul Rat.add Rat.sub Rat.inv in
/-- C2 counterexample: `use_gps9` (line 62) is declared at `main` scope
and never reset per file, so the Consolidated override persists into the
next file instead of being determined afresh by that file's own first
position-bearing block.  Concretely: after a file containing a GPS9
block, a file containing only a GPS5 block emits nothing, although the
same Legacy file processed in a fresh run emits a row. -/
theorem c2_per_file_generation_cex :
    ((processFiles noFilter { fileStart := 0, ps := pstate0 } [fileC, fileL]).2.getD 1 []) = []
    ∧ ((processFiles noFilter { fileStart := 0, ps := pstate0 } [fileL]).2.getD 0 []) ≠ [] := by
  constructor
  · decide
  · decide

/-- C2 (amended): once a Consolidated (GPS9) block is seen, Consolidated
handling overrides Legacy handling for the remainder of the entire run —
not merely of that file: the `use_gps9` flag stays set across all
subsequent files, and while it is set every Legacy (GPS5) block leaves
the dispatch state unchanged and emits nothing. -/
theorem c2_generation_overrides_run (f : Filt) (rs : RunState)
    (files : List (List Payload)) (h : rs.ps.useGps9 = true) :
    ((processFiles f rs files).1.ps.useGps9 = true)
    ∧ (∀ (fileStart pstart pfinish : ℚ) (s : PState) (ff : ℚ)
          (rows : List (List ℚ)) (ss : Nat) (ok : Bool), s.useGps9 = true →
        (processBlock f fileStart pstart pfinish s ff
            { data := .gps5 rows, structsize := ss, allocOk := ok }).1 = s
        ∧ (processBlock f fileStart pstart pfinish s ff
            { data := .gps5 rows, structsize := ss, allocOk := ok }).2.2 = []) :=
  ⟨processFiles_useGps9 f files rs h,
   fun fileStart pstart pfinish s ff rows ss ok hs =>
     processBlock_gps5_ignored f fileStart pstart pfinish s ff rows ss ok hs⟩

/-- Witness for C2 (amended): from a state with `use_gps9` already set,
processing a Legacy file keeps the flag set, and a concrete GPS5 block is
ignored. -/
theorem c2_generation_overrides_run_witness :
    ((processFiles noFilter
        { fileStart := 0, ps := { pstate0 with useGps9 := true } }
        [fileL]).1.ps.useGps9 = true)
    ∧ ((processBlock noFilter 0 0 1 { pstate0 with useGps9 := true } 0
          { data := .gps5 [gps5Row1], structsize := 8, allocOk := true }).1
            = { pstate0 with useGps9 := true }
        ∧ (processBlock noFilter 0 0 1 { pstate0 with useGps9 := true } 0
            { data := .gps5 [gps5Row1], structsize := 8, allocOk := true }).2.2 = []) := by
  have h := c2_generation_overrides_run noFilter
    { fileStart := 0, ps := { pstate0 with useGps9 := true } } [fileL] rfl
  exact ⟨h.1, h.2 0 0 1 { pstate0 with useGps9 := true } 0 [gps5Row1] 8 true rfl⟩

/-! ## C3: GPS9 clock seeding -/

/-- Unfolding equation for `gps9Loop` on a non-empty sample list. -/
theorem gps9Loop_cons (f : Filt) (fileStart step now : ℚ) (s : PState)
    (v : List ℚ) (rest : List (List ℚ)) :
    gps9Loop f fileStart step now s (v :: rest)
      = ((gps9Loop f fileStart step (now + step)
            (stepGps9Sample f fileStart now step s v).1 rest).1,
         (stepGps9Sample f fileStart now step s v).2
           ++ (gps9Loop f fileStart step (now + step)
                (stepGps9Sample f fileStart now step s v).1 rest).2) := rfl

/-- The seeded clock seconds: the code computes
`gps9_epoch + (days+1)*86400 + whole(secs)` where `gps9_epoch` is
1999-12-31 (from `tm_mday = 0`), which equals the 2000-01-01 epoch plus
`days * 86400` plus the whole-second part of the seconds-of-day field. -/
theorem gps9SeedClock_time (d e : ℚ) :
    (gps9SeedClock d e).time
      = epochOfDate 2000 1 1 0 0 0 + qtrunc d * 86400 + qtrunc e := by
  have h1 : gps9Epoch = 946598400 := by decide
  have h2 : epochOfDate 2000 1 1 0 0 0 = 946684800 := by decide
  have h3 : e - (e - (qtrunc e : ℚ)) = ((qtrunc e : ℚ)) := by ring
  simp only [gps9SeedClock, h3, qtrunc_intCast, h1, h2]
  ring

/-- The seeded clock milliseconds: the truncated fractional part of the
seconds-of-day field, in milliseconds. -/
theorem gps9SeedClock_millis (d e : ℚ) :
    qtrunc (gps9SeedClock d e).millis = qtrunc (1000 * (e - (qtrunc e : ℚ))) := by
  simp only [gps9SeedClock, qtrunc_intCast]

/-- Away from `now = 0`, processing a GPS9 sample reads nothing from the
sync fields at indexes 5 and 6. -/
theorem stepGps9Sample_sameObs (f : Filt) (fileStart now step : ℚ) (s : PState)
    (v w : List ℚ) (h : now ≠ 0) (hobs : sameObs v w) :
    stepGps9Sample f fileStart now step s v
      = stepGps9Sample f fileStart now step s w := by
  have h0 := hobs 0 (by decide) (by decide)
  have h1 := hobs 1 (by decide) (by decide)
  have h2 := hobs 2 (by decide) (by decide)
  have h3 := hobs 3 (by decide) (by decide)
  have h4 := hobs 4 (by decide) (by decide)
  have h7 := hobs 7 (by decide) (by decide)
  have h8 := hobs 8 (by decide) (by decide)
  simp only [stepGps9Sample, gps9Fields, if_neg h, h0, h1, h2, h3, h4, h7, h8]

/-- From a positive payload-local time on, with a positive step, the GPS9
loop is invariant under arbitrary changes to the samples' sync fields
(indexes 5 and 6). -/
theorem gps9Loop_sameObs (f : Filt) (fileStart step : ℚ) (hstep : 0 < step) :
    ∀ {rows rows2 : List (List ℚ)}, List.Forall₂ sameObs rows rows2 →
      ∀ (now : ℚ), 0 < now → ∀ (s : PState),
      gps9Loop f fileStart step now s rows
        = gps9Loop f fileStart step now s rows2 := by
  intro rows rows2 hobs
  induction hobs with
  | nil => intro now hnow s; rfl
  | cons hvw tail ih =>
    intro now hnow s
    rw [gps9Loop_cons, gps9Loop_cons,
        stepGps9Sample_sameObs f fileStart now step s _ _ (ne_of_gt hnow) hvw,
        ih (now + step) (by linarith) _]

unseal Rat.mul Rat.add Rat.sub Rat.inv in
/-- C3 counterexample: the GPS9 seeding condition is `0.0 == now` inside
the filter-accepted branch (line 287), not "the very first sample of the
very first payload".  With `min_fix=3`, a first sample with fix 0 is
filtered out and never seeds the clock: the row emitted for the second
sample (fix 3, `now = 1`) carries clock second 1 — the carried clock
merely advanced — and not the value the first sample's day/seconds sync
fields (day 500, 7 s) would have seeded. -/
theorem c3_first_sample_seed_cex :
    ((gps9Loop { minFix := 3, maxPrecision := -1 } 0 1 0 pstate0
        [gps9CexRowA, gps9CexRowB]).2.map Row.time = [1])
    ∧ ((946684800 + 500 * 86400 + 7 : Int) ≠ 1) := by
  constructor
  · decide
  · decide

/-- C3 (amended): for a Consolidated block processed from payload-local
time 0 with a positive step (the first position block of a file whose
first payload starts at 0), if the first sample passes the filter then it
seeds the clock from its own fields: the first emitted row's absolute
seconds are the 2000-01-01 epoch plus (value at index 5, days) * 86400
plus the whole-second part of the value at index 6, with the fractional
part of index 6 becoming the milliseconds (the code's 1999-12-31 base and
`days + 1` combine to exactly this); and all later samples rely only on
per-sample advancement: the block's entire result is unchanged under
arbitrary modification of the later samples' fields at indexes 5 and 6. -/
theorem c3_first_sample_seeds (f : Filt) (fileStart step : ℚ) (s : PState)
    (v : List ℚ) (rest rest2 : List (List ℚ))
    (hstep : 0 < step)
    (hpass : f.passes (qtrunc (v.getD 8 0)) (qtrunc (v.getD 7 0)) = true)
    (hobs : List.Forall₂ sameObs rest rest2) :
    (∃ r out, (gps9Loop f fileStart step 0 s (v :: rest)).2 = r :: out
      ∧ r.time = epochOfDate 2000 1 1 0 0 0
          + qtrunc (v.getD 5 0) * 86400 + qtrunc (v.getD 6 0)
      ∧ r.millisOut = qtrunc (1000 * (v.getD 6 0 - (qtrunc (v.getD 6 0) : ℚ))))
    ∧ gps9Loop f fileStart step 0 s (v :: rest)
        = gps9Loop f fileStart step 0 s (v :: rest2) := by
  have e0 : stepGps9Sample f fileStart 0 step s v
      = ({ useGps9 := true, fix := s.fix, precision := s.precision,
           clock := (gps9SeedClock (v.getD 5 0) (v.getD 6 0)).advance (step * 1000) },
         [{ cts := (fileStart + 0) * 1000,
            time := (gps9SeedClock (v.getD 5 0) (v.getD 6 0)).time,
            millisOut := qtrunc (gps9SeedClock (v.getD 5 0) (v.getD 6 0)).millis,
            fields := gps9Fields v,
            fix := qtrunc (v.getD 8 0), precision := qtrunc (v.getD 7 0) }]) := by
    simp only [stepGps9Sample]
    rw [if_pos hpass]
    simp only [if_true]
  constructor
  · refine ⟨{ cts := (fileStart + 0) * 1000,
              time := (gps9SeedClock (v.getD 5 0) (v.getD 6 0)).time,
              millisOut := qtrunc (gps9SeedClock (v.getD 5 0) (v.getD 6 0)).millis,
              fields := gps9Fields v,
              fix := qtrunc (v.getD 8 0), precision := qtrunc (v.getD 7 0) },
            (gps9Loop f fileStart step (0 + step)
               (stepGps9Sample f fileStart 0 step s v).1 rest).2, ?_, ?_, ?_⟩
    · rw [gps9Loop_cons, e0]
      simp only [List.cons_append, List.nil_append]
    · exact gps9SeedClock_time (v.getD 5 0) (v.getD 6 0)
    · exact gps9SeedClock_millis (v.getD 5 0) (v.getD 6 0)
  · rw [gps9Loop_cons, gps9Loop_cons,
        gps9Loop_sameObs f fileStart step hstep hobs (0 + step) (by linarith) _]

unseal Rat.mul Rat.add Rat.sub Rat.inv in
/-- Witness for C3 (amended) on a concrete one-sample GPS9 block with
day 1 and seconds-of-day 1/2. -/
theorem c3_first_sample_seeds_witness :
    (∃ r out, (gps9Loop noFilter 0 1 0 pstate0 [gps9RowHalf]).2 = r :: out
      ∧ r.time = epochOfDate 2000 1 1 0 0 0
          + qtrunc (gps9RowHalf.getD 5 0) * 86400 + qtrunc (gps9RowHalf.getD 6 0)
      ∧ r.millisOut = qtrunc (1000 * (gps9RowHalf.getD 6 0 - (qtrunc (gps9RowHalf.getD 6 0) : ℚ))))
    ∧ gps9Loop noFilter 0 1 0 pstate0 [gps9RowHalf]
        = gps9Loop noFilter 0 1 0 pstate0 [gps9RowHalf] :=
  c3_first_sample_seeds noFilter 0 1 pstate0 gps9RowHalf [] []
    (by norm_num) (by decide) List.Forall₂.nil

/-! ## C7: cross-file timestamp monotonicity -/

/-- Every row a GPS5/GPS9 sample body emits carries
`cts = (file_start + now) * 1000` (lines 244 and 285). -/
theorem stepGps5Sample_cts (f : Filt) (fileStart now step : ℚ) (s : PState)
    (v : List ℚ) :
    ∀ r ∈ (stepGps5Sample f fileStart now step s v).2,
      r.cts = (fileStart + now) * 1000 := by
  intro r hr
  simp only [stepGps5Sample] at hr
  split at hr
  · simp only [List.mem_singleton] at hr
    rw [hr]
  · simp at hr

theorem stepGps9Sample_cts (f : Filt) (fileStart now step : ℚ) (s : PState)
    (v : List ℚ) :
    ∀ r ∈ (stepGps9Sample f fileStart now step s v).2,
      r.cts = (fileStart + now) * 1000 := by
  intro r hr
  simp only [stepGps9Sample] at hr
  split at hr
  · simp only [List.mem_singleton] at hr
    rw [hr]
  · simp at hr

theorem sampleLoop_cts_bounds (stepFn : ℚ → PState → List ℚ → PState × List Row)
    (fileStart step : ℚ) (hstep : 0 ≤ step)
    (H : ∀ now s v, ∀ r ∈ (stepFn now s v).2, r.cts = (fileStart + now) * 1000) :
    ∀ (rows : List (List ℚ)) (now : ℚ) (s : PState),
      ∀ r ∈ (sampleLoop stepFn step now s rows).2,
        (fileStart + now) * 1000 ≤ r.cts
        ∧ r.cts ≤ (fileStart + now + step * rows.length) * 1000 := by
  intro rows
  induction rows with
  | nil => intro now s r hr; simp [sampleLoop] at hr
  | cons v rest ih =>
    intro now s r hr
    have hpos : (0:ℚ) ≤ step * ((rest.length : ℚ) + 1) :=
      mul_nonneg hstep (by positivity)
    have hpos2 : (0:ℚ) ≤ step * (rest.length : ℚ) :=
      mul_nonneg hstep (by positivity)
    simp only [sampleLoop, List.mem_append] at hr
    rcases hr with hr | hr
    · have hc := H now s v r hr
      constructor
      · rw [hc]
      · rw [hc]
        simp only [List.length_cons]
        push_cast
        nlinarith [hpos]
    · have hb := ih (now + step) (stepFn now s v).1 r hr
      constructor
      · nlinarith [hb.1, hstep]
      · have hu := hb.2
        simp only [List.length_cons]
        push_cast
        nlinarith [hu]


theorem gps5Loop_cts_bounds (f : Filt) (fileStart step : ℚ) (hstep : 0 ≤ step)
    (rows : List (List ℚ)) (now : ℚ) (s : PState) :
    ∀ r ∈ (gps5Loop f fileStart step now s rows).2,
      (fileStart + now) * 1000 ≤ r.cts
      ∧ r.cts ≤ (fileStart + now + step * rows.length) * 1000 :=
  sampleLoop_cts_bounds (fun now s v => stepGps5Sample f fileStart now step s v)
    fileStart step hstep
    (fun now s v => stepGps5Sample_cts f fileStart now step s v) rows now s

theorem gps9Loop_cts_bounds (f : Filt) (fileStart step : ℚ) (hstep : 0 ≤ step)
    (rows : List (List ℚ)) (now : ℚ) (s : PState) :
    ∀ r ∈ (gps9Loop f fileStart step now s rows).2,
      (fileStart + now) * 1000 ≤ r.cts
      ∧ r.cts ≤ (fileStart + now + step * rows.length) * 1000 :=
  sampleLoop_cts_bounds (fun now s v => stepGps9Sample f fileStart now step s v)
    fileStart step hstep
    (fun now s v => stepGps9Sample_cts f fileStart now step s v) rows now s

theorem processBlock_cts_bounds (f : Filt) (fileStart pstart pfinish : ℚ)
    (s : PState) (ff : ℚ) (b : RawBlock) (h1 : pstart ≤ pfinish) :
    ∀ r ∈ (processBlock f fileStart pstart pfinish s ff b).2.2,
      (fileStart + pstart) * 1000 ≤ r.cts
      ∧ r.cts ≤ (fileStart + pfinish) * 1000 := by
  intro r hr
  rcases b with ⟨data, ss, ok⟩
  unfold processBlock at hr
  repeat' split at hr
  all_goals try simp at hr
  case _ hns hnss hnok x rows2 hdata hng =>
    have hn : rows2.length ≠ 0 := by
      have hd : data = BlockData.gps5 rows2 := hdata
      rw [hd] at hns
      simpa [RawBlock.samples] using hns
    have hnq : ((rows2.length : ℚ)) ≠ 0 := Nat.cast_ne_zero.mpr hn
    have hstep : 0 ≤ (pfinish - pstart) / (rows2.length : ℚ) :=
      div_nonneg (by linarith) (by positivity)
    have hb := gps5Loop_cts_bounds f fileStart
      ((pfinish - pstart) / (rows2.length : ℚ)) hstep rows2 pstart s r hr
    have hmul : (pfinish - pstart) / (rows2.length : ℚ) * (rows2.length : ℚ)
        = pfinish - pstart := div_mul_cancel₀ _ hnq
    refine ⟨hb.1, ?_⟩
    have hu := hb.2
    rw [show fileStart + pstart + (pfinish - pstart) / (rows2.length : ℚ) * (rows2.length : ℚ)
          = fileStart + pfinish by rw [hmul]; ring] at hu
    exact hu
  case _ hns hnss hnok x rows2 hdata =>
    have hn : rows2.length ≠ 0 := by
      have hd : data = BlockData.gps9 rows2 := hdata
      rw [hd] at hns
      simpa [RawBlock.samples] using hns
    have hnq : ((rows2.length : ℚ)) ≠ 0 := Nat.cast_ne_zero.mpr hn
    have hstep : 0 ≤ (pfinish - pstart) / (rows2.length : ℚ) :=
      div_nonneg (by linarith) (by positivity)
    have hb := gps9Loop_cts_bounds f fileStart
      ((pfinish - pstart) / (rows2.length : ℚ)) hstep rows2 pstart s r hr
    have hmul : (pfinish - pstart) / (rows2.length : ℚ) * (rows2.length : ℚ)
        = pfinish - pstart := div_mul_cancel₀ _ hnq
    refine ⟨hb.1, ?_⟩
    have hu := hb.2
    rw [show fileStart + pstart + (pfinish - pstart) / (rows2.length : ℚ) * (rows2.length : ℚ)
          = fileStart + pfinish by rw [hmul]; ring] at hu
    exact hu


theorem processBlocks_cts_bounds (f : Filt) (fileStart pstart pfinish : ℚ)
    (h1 : pstart ≤ pfinish) :
    ∀ (bs : List RawBlock) (st : PState × ℚ),
      ∀ r ∈ (processBlocks f fileStart pstart pfinish st bs).2,
        (fileStart + pstart) * 1000 ≤ r.cts
        ∧ r.cts ≤ (fileStart + pfinish) * 1000 := by
  intro bs
  induction bs with
  | nil => intro st r hr; simp [processBlocks] at hr
  | cons b rest ih =>
    intro st r hr
    simp only [processBlocks, List.mem_append] at hr
    rcases hr with hr | hr
    · exact processBlock_cts_bounds f fileStart pstart pfinish st.1 st.2 b h1 r hr
    · exact ih _ r hr

theorem processPayloads_cts_lower (f : Filt) (fileStart : ℚ) :
    ∀ (ps : List Payload) (st : PState × ℚ),
      (∀ p ∈ ps, 0 ≤ p.start ∧ p.start ≤ p.finish) →
      ∀ r ∈ (processPayloads f fileStart st ps).2, fileStart * 1000 ≤ r.cts := by
  intro ps
  induction ps with
  | nil => intro st hps r hr; simp [processPayloads] at hr
  | cons p rest ih =>
    intro st hps r hr
    simp only [processPayloads, List.mem_append] at hr
    rcases hr with hr | hr
    · have hp := hps p (List.mem_cons_self p rest)
      have hb := (processBlocks_cts_bounds f fileStart p.start p.finish hp.2
          p.blocks st r hr).1
      nlinarith [hp.1, hb]
    · exact ih _ (fun q hq => hps q (List.mem_cons_of_mem p hq)) r hr

theorem processPayloads_cts_upper (f : Filt) (fileStart bound : ℚ) :
    ∀ (ps : List Payload) (st : PState × ℚ),
      (∀ p ∈ ps, p.start ≤ p.finish ∧ p.finish ≤ bound) →
      ∀ r ∈ (processPayloads f fileStart st ps).2,
        r.cts ≤ (fileStart + bound) * 1000 := by
  intro ps
  induction ps with
  | nil => intro st hps r hr; simp [processPayloads] at hr
  | cons p rest ih =>
    intro st hps r hr
    simp only [processPayloads, List.mem_append] at hr
    rcases hr with hr | hr
    · have hp := hps p (List.mem_cons_self p rest)
      have hb := (processBlocks_cts_bounds f fileStart p.start p.finish hp.1
          p.blocks st r hr).2
      nlinarith [hp.2, hb]
    · exact ih _ (fun q hq => hps q (List.mem_cons_of_mem p hq)) r hr

unseal Rat.mul Rat.add Rat.sub Rat.inv in
/-- C7: across a multi-file run the per-file time base accumulates the
final `file_finish` of the previous file (line 340), so — given payloads
with well-formed time windows (`0 ≤ start ≤ finish`, and file A's
windows not exceeding its final `file_finish`) — every timestamp emitted
by file N+1 is ≥ every timestamp emitted by file N; concretely, when file
A's last payload finishes at local time 10.0 s and file B's first payload
starts at local time 0, file B's first emitted `cts` equals
10.0 s × 1000 = 10000. -/
theorem c7_cross_file_monotonicity (f : Filt) (rs : RunState)
    (A B : List Payload)
    (hA : ∀ p ∈ A, p.start ≤ p.finish
            ∧ p.finish ≤ (processPayloads f rs.fileStart (rs.ps, 0) A).1.2)
    (hB : ∀ p ∈ B, 0 ≤ p.start ∧ p.start ≤ p.finish) :
    (∀ rA ∈ (processFile f rs A).2,
       ∀ rB ∈ (processFile f (processFile f rs A).1 B).2, rA.cts ≤ rB.cts)
    ∧ (processFile f rs A).1.fileStart
        = rs.fileStart + (processPayloads f rs.fileStart (rs.ps, 0) A).1.2
    ∧ ((processFiles noFilter { fileStart := 0, ps := pstate0 }
          [fileA10, fileB0]).2.getD 1 []).map Row.cts = [10000] := by
  refine ⟨?_, rfl, ?_⟩
  · intro rA hrA rB hrB
    have hup : rA.cts ≤ (rs.fileStart + (processPayloads f rs.fileStart (rs.ps, 0) A).1.2) * 1000 :=
      processPayloads_cts_upper f rs.fileStart
        (processPayloads f rs.fileStart (rs.ps, 0) A).1.2 A (rs.ps, 0) hA rA hrA
    have hlow : ((processFile f rs A).1.fileStart) * 1000 ≤ rB.cts :=
      processPayloads_cts_lower f (processFile f rs A).1.fileStart B
        ((processFile f rs A).1.ps, 0) hB rB hrB
    have hfs : (processFile f rs A).1.fileStart
        = rs.fileStart + (processPayloads f rs.fileStart (rs.ps, 0) A).1.2 := rfl
    rw [hfs] at hlow
    linarith
  · decide


unseal Rat.mul Rat.add Rat.sub Rat.inv in
/-- Witness for C7 on the concrete two-file run: file A's (only) row
precedes file B's (only) row. -/
theorem c7_cross_file_monotonicity_witness :
    ((processFile noFilter { fileStart := 0, ps := pstate0 } fileA10).2.headD row0).cts
      ≤ ((processFile noFilter
            (processFile noFilter { fileStart := 0, ps := pstate0 } fileA10).1
            fileB0).2.headD row0).cts :=
  (c7_cross_file_monotonicity noFilter { fileStart := 0, ps := pstate0 }
      fileA10 fileB0 (by decide) (by decide)).1
    ((processFile noFilter { fileStart := 0, ps := pstate0 } fileA10).2.headD row0)
    (by decide)
    ((processFile noFilter
        (processFile noFilter { fileStart := 0, ps := pstate0 } fileA10).1
        fileB0).2.headD row0)
    (by decide)

end GpsTelemetry
